/-
Verification of the LP-BOT decision engine (src/bot.py) in a shallow
embedding.  Prices, sizes and scores are modelled as rationals; Python
operations that may raise (float conversions of raw record fields) are
modelled as Except values; the normaliser's record-skipping behaviour is
an Option result.  Each definition is a direct transcription of the
corresponding function in bot.py.
-/
import Mathlib

set_option maxHeartbeats 1000000

/-- Python round(x, 3): round to the nearest thousandth (the program's
tick size).  Mathlib's round is used for the generic rounding step. -/
def round3 (x : ℚ) : ℚ := (round (x * 1000) : ℚ) / 1000

/-- max(lo, min(hi, x)), the price clamping used in place_lp_orders. -/
def clamp (lo hi x : ℚ) : ℚ := max lo (min hi x)

/-- Risk tier of a position, as assigned by check_fill_risk.  The source
stores these as strings; low is the dataclass initial value "LOW". -/
inductive RiskLevel
  | low
  | critical
  | warning
  | watch
  | safe
deriving DecidableEq

/-- Outcome of datetime.fromisoformat on an end-date string: either the
resulting horizon in days, (end - now).total_seconds() / 86400, possibly
negative, or a parse failure. -/
inductive RawDate
  | missing
  | parsed (days : ℚ)
  | unparsable
deriving DecidableEq

/-- The RewardMarket dataclass of bot.py. -/
structure RewardMarket where
  condition_id : String
  question : String
  slug : String
  token_id_yes : String
  token_id_no : String
  end_date : Option RawDate
  days_to_resolution : ℚ
  daily_reward : ℚ
  max_spread : ℚ
  min_size : ℚ
  midpoint : ℚ
  best_bid : ℚ
  best_ask : ℚ
  spread : ℚ
  volume_24h : ℚ
  liquidity : ℚ
  competition_score : ℚ
  risk_score : ℚ
  reward_per_dollar : ℚ
deriving DecidableEq

/-- The ActivePosition dataclass of bot.py. -/
structure ActivePosition where
  market : RewardMarket
  order_id_yes : Option String := none
  order_id_no : Option String := none
  our_bid_price : ℚ := 0
  our_ask_price : ℚ := 0
  size : ℚ := 0
  placed_at : String := ""
  fills_today : ℕ := 0
  rewards_earned : ℚ := 0
  risk_level : RiskLevel := .low
deriving DecidableEq

/-- A raw JSON-ish scalar field of a market record: absent (key missing,
or null behind a falsy-guarded get), a value float() accepts (a number
or a numeric string), or a truthy value float() rejects. -/
inductive RawField
  | absent
  | val (q : ℚ)
  | malformed
deriving DecidableEq

/-- Python truthiness of a raw field value (0, None and missing are
falsy; a non-numeric truthy value is truthy). -/
def RawField.truthy : RawField → Bool
  | .absent => false
  | .val q => decide (q ≠ 0)
  | .malformed => true

/-- Python float() on a bare value (list entries): numbers succeed,
anything else raises. -/
def pyFloatVal : RawField → Except Unit ℚ
  | .val q => .ok q
  | _ => .error ()

/-- First truthy value of an `a or b or ... or 0` chain (0 if none). -/
def or_chain : List RawField → RawField
  | [] => .val 0
  | f :: fs => if f.truthy then f else or_chain fs

/-- float(market.get(key, 0) or 0). -/
def pyFloatOr (f : RawField) : Except Unit ℚ := pyFloatVal (or_chain [f])

/-- float(market.get(k1, 0) or market.get(k2, 0) or 0). -/
def pyFloatOr2 (f g : RawField) : Except Unit ℚ := pyFloatVal (or_chain [f, g])

/-- One entry of the nested "rewards" array: either not a dict (skipped
by the isinstance check) or a dict with the three rate field variants. -/
inductive RewardEntry
  | nondict
  | entry (rewardsDailyRate dailyRate rewards_daily_rate : RawField)
deriving DecidableEq

/-- The raw "rewards" field: a non-list value (loop skipped) or a list
of entries; a missing key defaults to the empty list. -/
inductive RawRewards
  | notList
  | entries (rs : List RewardEntry)
deriving DecidableEq

/-- float(r.get("rewardsDailyRate", 0) or r.get("dailyRate", 0) or
r.get("rewards_daily_rate", 0) or 0) for one rewards entry; non-dict
entries contribute 0. -/
def reward_entry_rate : RewardEntry → Except Unit ℚ
  | .nondict => .ok 0
  | .entry a b c => pyFloatVal (or_chain [a, b, c])

/-- rewards_daily += ... accumulated left to right over the entries. -/
def sum_reward_entries : List RewardEntry → Except Unit ℚ
  | [] => .ok 0
  | r :: rs => do
      let x ← reward_entry_rate r
      let s ← sum_reward_entries rs
      pure (x + s)

/-- The raw "outcomePrices" field: missing (default "[]" decodes to the
empty list), a JSON string decoding to a list, an undecodable string
(falls back to [0.5, 0.5]), an already-decoded list, or a non-string
non-list value on which len() raises. -/
inductive RawPrices
  | missing
  | jsonStr (ps : List RawField)
  | jsonBad
  | already (ps : List RawField)
  | notStrOrList
deriving DecidableEq

/-- The decoded outcome price list (len() raising on a non-list is the
error case). -/
def price_list : RawPrices → Except Unit (List RawField)
  | .missing => .ok []
  | .jsonStr ps => .ok ps
  | .jsonBad => .ok [.val (1/2), .val (1/2)]
  | .already ps => .ok ps
  | .notStrOrList => .error ()

/-- The event dict passed to parse_market (always empty at the call site
in fetch_reward_markets, but carried for fidelity). -/
structure RawEvent where
  endDate : RawDate := .missing
deriving DecidableEq

/-- The fields of a raw market record that parse_market reads. -/
structure RawMarket where
  clobTokenIds : Option (List String) := none
  rewardsMaxSpread : RawField := .absent
  rewards_max_spread : RawField := .absent
  max_incentive_spread : RawField := .absent
  rewardsMinSize : RawField := .absent
  rewards_min_size : RawField := .absent
  min_incentive_size : RawField := .absent
  rewards : RawRewards := .entries []
  rewardsDailyRate : RawField := .absent
  rewards_daily_rate : RawField := .absent
  competitive : RawField := .absent
  endDate : RawDate := .missing
  end_date_iso : RawDate := .missing
  outcomePrices : RawPrices := .missing
  volume24hr : RawField := .absent
  volume_num : RawField := .absent
  liquidity : RawField := .absent
  liquidityNum : RawField := .absent
  bestBid : RawField := .absent
  bestAsk : RawField := .absent
  conditionId : Option String := none
  condition_id : Option String := none
  question : Option String := none
  slug : Option String := none
deriving DecidableEq

/-- market.get("endDate") or event.get("endDate") or
market.get("end_date_iso"): the first present end-date value. -/
def first_end_date (market : RawMarket) (event : RawEvent) : Option RawDate :=
  match market.endDate with
  | .missing =>
      match event.endDate with
      | .missing =>
          match market.end_date_iso with
          | .missing => none
          | d => some d
      | d => some d
  | d => some d

/-- days_to_resolution of bot.py lines 266-274: 365 unless an end date
is present and parses, in which case the horizon floored at 0. -/
def resolution_days (market : RawMarket) (event : RawEvent) : ℚ :=
  match first_end_date market event with
  | some (.parsed d) => max 0 d
  | _ => 365

/-- The pure tail of parse_market: given the successfully converted raw
values, derive every remaining field and build the RewardMarket record
exactly as bot.py lines 261-340 do. -/
def build_market (market : RawMarket) (event : RawEvent)
    (token_id_yes token_id_no : String)
    (max_spread0 min_size rewards_daily yes_price no_price
     volume_24h liquidity best_bid0 best_ask0 : ℚ) : RewardMarket :=
  -- convert max_spread from cents to decimal if it looks like cents (> 1)
  let max_spread := if 1 < max_spread0 then max_spread0 / 100 else max_spread0
  -- end date / resolution (365-day default when missing or unparsable)
  let end_date := first_end_date market event
  let days_to_resolution : ℚ := resolution_days market event
  let midpoint := yes_price
  -- spread: prefer raw bid/ask when both positive, else synthesize
  let spread :=
    if 0 < best_bid0 ∧ 0 < best_ask0 then best_ask0 - best_bid0
    else if no_price ≠ 0 then |yes_price - (1 - no_price)| else 0
  let best_bid :=
    if 0 < best_bid0 ∧ 0 < best_ask0 then best_bid0 else yes_price - spread / 2
  let best_ask :=
    if 0 < best_bid0 ∧ 0 < best_ask0 then best_ask0 else yes_price + spread / 2
  -- competition score
  let competition_score :=
    if 0 < rewards_daily then min 100 (liquidity / (rewards_daily * 100) * 10)
    else 100
  -- risk score
  let time_risk := max 0 (50 - days_to_resolution) * 2
  let price_risk := (1 - |midpoint - 1/2| * 2) * 50
  let volume_risk := min 50 (volume_24h / 1000 * 10)
  let risk_score := min 100 ((time_risk + price_risk + volume_risk) / 3)
  -- reward per dollar
  let capital_needed := if 0 < min_size then min_size * 2 else 100
  let reward_per_dollar :=
    if 0 < rewards_daily then rewards_daily / max capital_needed 1 else 0
  { condition_id := market.conditionId.getD (market.condition_id.getD "")
    question := market.question.getD "Unknown"
    slug := market.slug.getD ""
    token_id_yes := token_id_yes
    token_id_no := token_id_no
    end_date := end_date
    days_to_resolution := days_to_resolution
    daily_reward := rewards_daily
    max_spread := max_spread
    min_size := min_size
    midpoint := midpoint
    best_bid := best_bid
    best_ask := best_ask
    spread := spread
    volume_24h := volume_24h
    liquidity := liquidity
    competition_score := competition_score
    risk_score := risk_score
    reward_per_dollar := reward_per_dollar }

/-- An `if value == 0: value = float(get-chain)` fallback step of the
field-variant patterns in parse_market. -/
def fallback_if_zero (current : ℚ) (f : RawField) : Except Unit ℚ :=
  if current = 0 then pyFloatOr f else pure current

/-- Pattern 4 of parse_market: the accumulated dailyRate sum over the
nested rewards array (0 when the field is not a list). -/
def rewards_daily_base : RawRewards → Except Unit ℚ
  | .notList => pure 0
  | .entries rs => sum_reward_entries rs

/-- yes_price = float(prices[0]) if len(prices) > 0 else 0.5. -/
def yes_price_of (prices : List RawField) : Except Unit ℚ :=
  if 0 < prices.length then pyFloatVal (prices.getD 0 .absent) else pure (1/2)

/-- no_price = float(prices[1]) if len(prices) > 1 else 0.5. -/
def no_price_of (prices : List RawField) : Except Unit ℚ :=
  if 1 < prices.length then pyFloatVal (prices.getD 1 .absent) else pure (1/2)

/-- The fallible part of parse_market after the token-id check: each
float() conversion in source order, any failure aborting the whole
record (the outer try of bot.py line 215). -/
def parse_market_core (market : RawMarket) (event : RawEvent)
    (token_id_yes token_id_no : String) : Except Unit RewardMarket := do
  -- Pattern 1: top-level camelCase
  let ms1 ← pyFloatOr market.rewardsMaxSpread
  let mn1 ← pyFloatOr market.rewardsMinSize
  -- Pattern 2: top-level snake_case
  let ms2 ← fallback_if_zero ms1 market.rewards_max_spread
  let mn2 ← fallback_if_zero mn1 market.rewards_min_size
  -- Pattern 3: incentive fields
  let ms3 ← fallback_if_zero ms2 market.max_incentive_spread
  let mn3 ← fallback_if_zero mn2 market.min_incentive_size
  -- Pattern 4: nested rewards array
  let rd1 ← rewards_daily_base market.rewards
  -- Pattern 5: top-level daily rate fields
  let rd2 ← fallback_if_zero rd1 market.rewardsDailyRate
  let rd3 ← fallback_if_zero rd2 market.rewards_daily_rate
  -- Pattern 6: competitive field (value unused, conversion can still fail)
  let _competitive ← pyFloatOr market.competitive
  -- outcome prices
  let prices ← price_list market.outcomePrices
  let yes_price ← yes_price_of prices
  let no_price ← no_price_of prices
  -- volume and liquidity
  let volume_24h ← pyFloatOr2 market.volume24hr market.volume_num
  let liquidity ← pyFloatOr2 market.liquidity market.liquidityNum
  -- top-of-book
  let best_bid ← pyFloatOr market.bestBid
  let best_ask ← pyFloatOr market.bestAsk
  .ok (build_market market event token_id_yes token_id_no
        ms3 mn3 rd3 yes_price no_price volume_24h liquidity best_bid best_ask)

/-- Python truthiness of the clobTokenIds list together with the length
check of bot.py line 218 (the record has two tradable outcomes). -/
def token_ids_ok (market : RawMarket) : Bool :=
  match market.clobTokenIds with
  | none => false
  | some tids => decide (2 ≤ tids.length)

/-- parse_market of bot.py: reject records with fewer than two outcome
tokens, and turn any exception during derivation into None. -/
def parse_market (market : RawMarket) (event : RawEvent) : Option RewardMarket :=
  match market.clobTokenIds with
  | none => none
  | some tids =>
      if tids.length < 2 then none
      else
        match parse_market_core market event (tids.getD 0 "") (tids.getD 1 "") with
        | .ok r => some r
        | .error _ => none

/-- The reward-eligibility filter of fetch_reward_markets line 191:
daily_reward > 0 and max_spread > 0. -/
def reward_filter (all_markets : List RewardMarket) : List RewardMarket :=
  all_markets.filter fun m =>
    decide (0 < m.daily_reward) && decide (0 < m.max_spread)

/-- The threshold filter loop of fetch_reward_markets lines 196-204:
skip markets below the day and reward minima or above the competition
maximum. -/
def threshold_filter (min_days min_daily_reward max_competition : ℚ)
    (ms : List RewardMarket) : List RewardMarket :=
  ms.filter fun m =>
    decide (min_days ≤ m.days_to_resolution) &&
    decide (min_daily_reward ≤ m.daily_reward) &&
    decide (m.competition_score ≤ max_competition)

/-- The sort key order of fetch_reward_markets line 207: descending
reward_per_dollar, ties keeping list order (Python's sort is stable). -/
def rpd_ge (a b : RewardMarket) : Prop :=
  b.reward_per_dollar ≤ a.reward_per_dollar

instance : DecidableRel rpd_ge := fun a b =>
  inferInstanceAs (Decidable (b.reward_per_dollar ≤ a.reward_per_dollar))

instance : IsTotal RewardMarket rpd_ge :=
  ⟨fun a b => le_total b.reward_per_dollar a.reward_per_dollar⟩

instance : IsTrans RewardMarket rpd_ge :=
  ⟨fun _ _ _ h h' => le_trans h' h⟩

/-- The pure ranking stage of fetch_reward_markets (lines 191-210):
reward-eligibility filter, threshold filters, then a stable sort,
descending in reward_per_dollar. -/
def rank_markets (min_days min_daily_reward max_competition : ℚ)
    (all_markets : List RewardMarket) : List RewardMarket :=
  List.insertionSort rpd_ge
    (threshold_filter min_days min_daily_reward max_competition
      (reward_filter all_markets))

/-- The order plan computed by place_lp_orders (lines 382-441): prices,
the synthesized NO side, and share sizes.  Submission itself is the
external order client. -/
structure QuotePlan where
  bid_price : ℚ
  ask_price : ℚ
  no_bid_price : ℚ
  bid_shares : ℚ
  ask_shares : ℚ
  no_shares : ℚ
deriving DecidableEq

/-- place_lp_orders of bot.py: quote at the outer edge of the reward
band plus a safety margin, round to the tick, clamp to [0.01, 0.99],
size as capital / price raised to the program minimum, and synthesize
the ask side as a buy of the NO token at 1 - ask_price. -/
def place_lp_orders (mid max_sp safety_margin size min_shares : ℚ) : QuotePlan :=
  let bid_price0 := round3 (mid - max_sp + safety_margin)
  let ask_price0 := round3 (mid + max_sp - safety_margin)
  let bid_price := clamp (1/100) (99/100) bid_price0
  let ask_price := clamp (1/100) (99/100) ask_price0
  let bid_shares := if 0 < bid_price then size / bid_price else 0
  let ask_shares := if 0 < ask_price then size / ask_price else 0
  let bid_shares := max bid_shares min_shares
  let ask_shares := max ask_shares min_shares
  let no_bid_price := round3 (1 - ask_price)
  let no_bid_price := clamp (1/100) (99/100) no_bid_price
  let no_shares := if 0 < no_bid_price then size / no_bid_price else 0
  let no_shares := max no_shares min_shares
  { bid_price := bid_price
    ask_price := ask_price
    no_bid_price := no_bid_price
    bid_shares := bid_shares
    ask_shares := ask_shares
    no_shares := no_shares }

/-- The per-position body of check_fill_risk (lines 484-514): classify
by the distances of the freshly monitored midpoint to our two quotes,
first matching tier winning; the Bool records whether an alert message
is emitted (appended and sent) for the position. -/
def check_fill_risk (threshold current_mid our_bid_price our_ask_price : ℚ) :
    RiskLevel × Bool :=
  let bid_distance := |current_mid - our_bid_price|
  let ask_distance := |current_mid - our_ask_price|
  if bid_distance < threshold ∨ ask_distance < threshold then
    (.critical, true)
  else if bid_distance < threshold * 2 ∨ ask_distance < threshold * 2 then
    (.warning, true)
  else if bid_distance < threshold * 3 ∨ ask_distance < threshold * 3 then
    (.watch, false)
  else
    (.safe, false)

/-- cancel_order of bot.py: try the external cancel, swallow and log any
exception; the Bool is whether the cancel succeeded. -/
def cancel_order (client_cancel : String → Except String Unit)
    (order_id : String) : Bool :=
  match client_cancel order_id with
  | .ok _ => true
  | .error _ => false

/-- Python truthiness of an optional order handle: `if pos.order_id_yes:`
is false for None and for the empty string. -/
def truthy_handle : Option String → List String
  | none => []
  | some oid => if oid = "" then [] else [oid]

/-- The shutdown handler of run_bot (lines 668-678): walk the positions
and attempt one cancellation per truthy order handle, recording each
attempted order id with the outcome; a failed cancel never stops the
walk because cancel_order swallows the exception. -/
def handle_signal (client_cancel : String → Except String Unit)
    (positions : List ActivePosition) : List (String × Bool) :=
  positions.flatMap fun pos =>
    (truthy_handle pos.order_id_yes).map
      (fun oid => (oid, cancel_order client_cancel oid)) ++
    (truthy_handle pos.order_id_no).map
      (fun oid => (oid, cancel_order client_cancel oid))

/-- Externally visible actions of one rescan: an order cancellation or a
quote placement on a market. -/
inductive BotEvent
  | cancel (order_id : String)
  | place (condition_id : String)
deriving DecidableEq

/-- The ActivePosition built by run_bot lines 717-725 after quoting a
market (note: these recorded prices are rounded but not clamped). -/
def rescan_position (size safety_margin : ℚ) (now : String)
    (order_ids : Option String × Option String) (m : RewardMarket) :
    ActivePosition :=
  { market := m
    order_id_yes := order_ids.1
    order_id_no := order_ids.2
    our_bid_price := round3 (m.midpoint - m.max_spread + safety_margin)
    our_ask_price := round3 (m.midpoint + m.max_spread - safety_margin)
    size := size
    placed_at := now }

/-- The quoting loop of run_bot lines 706-726 over the top-ranked
markets: emit a placement event and create one position per market. -/
def place_loop (size safety_margin : ℚ) (now : String)
    (submit : RewardMarket → Option String × Option String) :
    List RewardMarket → List BotEvent × List ActivePosition
  | [] => ([], [])
  | m :: ms =>
      let ids := submit m
      let rest := place_loop size safety_margin now submit ms
      (.place m.condition_id :: rest.1,
       rescan_position size safety_margin now ids m :: rest.2)

/-- The rescan body of run_bot lines 692-726, entered when the rescan
interval elapsed or no positions exist: if the scan produced any
markets, cancel every truthy order handle of the existing positions,
clear the position set, and quote the top max_markets markets; if the
scan came back empty, nothing is cancelled and the positions are kept. -/
def run_bot_rescan (max_markets : ℕ) (size safety_margin : ℚ) (now : String)
    (submit : RewardMarket → Option String × Option String)
    (markets : List RewardMarket) (positions : List ActivePosition) :
    List BotEvent × List ActivePosition :=
  if markets.isEmpty then ([], positions)
  else
    let cancel_events := positions.flatMap fun pos =>
      (truthy_handle pos.order_id_yes ++ truthy_handle pos.order_id_no).map
        BotEvent.cancel
    let placed := place_loop size safety_margin now submit
      (markets.take max_markets)
    (cancel_events ++ placed.1, placed.2)

/-- An empty event dict, as passed by fetch_reward_markets. -/
def event0 : RawEvent := {}

/-- A concrete eligible market used to instantiate the ranker. -/
def marketA : RewardMarket :=
  { condition_id := "cond-a"
    question := "Will it rain"
    slug := "will-it-rain"
    token_id_yes := "tok-yes-a"
    token_id_no := "tok-no-a"
    end_date := none
    days_to_resolution := 30
    daily_reward := 10
    max_spread := 3/100
    min_size := 50
    midpoint := 1/2
    best_bid := 47/100
    best_ask := 53/100
    spread := 6/100
    volume_24h := 1000
    liquidity := 5000
    competition_score := 50
    risk_score := 20
    reward_per_dollar := 1/10 }

/-- A raw record with two token ids, a positive daily reward and a
negative raw liquidity value. -/
def rawNegLiq : RawMarket :=
  { clobTokenIds := some ["tok-yes-b", "tok-no-b"]
    rewardsDailyRate := .val 1
    liquidity := .val (-1000) }

/-- A raw record carrying explicit positive best bid and ask quotes and
an outcome price list whose yes price differs from their mean. -/
def rawBidAsk : RawMarket :=
  { clobTokenIds := some ["tok-yes-c", "tok-no-c"]
    outcomePrices := .already [.val (7/10), .val (3/10)]
    bestBid := .val (2/5)
    bestAsk := .val (3/5) }

/-- A raw record with no token-id list at all. -/
def rawNoTokens : RawMarket := { clobTokenIds := none }

/-- A well-formed raw record that exercises the synthetic bid/ask branch
(no raw top-of-book quotes). -/
def rawGood : RawMarket :=
  { clobTokenIds := some ["tok-yes-d", "tok-no-d"]
    rewardsMaxSpread := .val 3
    rewardsMinSize := .val 100
    rewardsDailyRate := .val 2
    outcomePrices := .already [.val (3/5), .val (2/5)]
    volume24hr := .val 100
    liquidity := .val 500 }

/-- A position holding two live order handles. -/
def positionA : ActivePosition :=
  { market := marketA
    order_id_yes := some "oid-yes-1"
    order_id_no := some "oid-no-1"
    our_bid_price := 2/5
    our_ask_price := 3/5
    size := 500 }

/-- A position whose yes-side handle is present but the empty string. -/
def positionE : ActivePosition :=
  { market := marketA
    order_id_yes := some ""
    order_id_no := none
    our_bid_price := 2/5
    our_ask_price := 3/5
    size := 500 }

theorem except_bind_ok {α β : Type} {x : Except Unit α} {f : α → Except Unit β}
    {r : β} : x >>= f = Except.ok r ↔ ∃ a, x = Except.ok a ∧ f a = Except.ok r := by
  cases x <;> simp [Bind.bind, Except.bind]

theorem except_ok_bind {α β : Type} (a : α) (f : α → Except Unit β) :
    (Except.ok a >>= f) = f a := rfl

/-- Inversion for the fallible stage of parse_market: a successful run
is exactly a build_market record over successfully converted values. -/
theorem parse_market_core_ok {market : RawMarket} {event : RawEvent}
    {y n : String} {r : RewardMarket}
    (h : parse_market_core market event y n = Except.ok r) :
    ∃ ms mn rd yp np vol liq bb ba,
      pyFloatOr market.bestBid = Except.ok bb ∧
      pyFloatOr market.bestAsk = Except.ok ba ∧
      r = build_market market event y n ms mn rd yp np vol liq bb ba := by
  unfold parse_market_core at h
  simp only [except_bind_ok] at h
  obtain ⟨ms1, h1, mn1, h2, ms2, h3, mn2, h4, ms3, h5, mn3, h6,
    rd1, h7, rd2, h8, rd3, h9, c, h10, pr, h11, yp, h12, np, h13,
    vol, h14, liq, h15, bb, h16, ba, h17, hr⟩ := h
  exact ⟨ms3, mn3, rd3, yp, np, vol, liq, bb, ba, h16, h17,
    (Except.ok.inj hr).symm⟩

/-- Inversion for parse_market: a produced market comes from a record
with at least two token ids and a fully successful derivation. -/
theorem parse_market_some {market : RawMarket} {event : RawEvent}
    {r : RewardMarket} (h : parse_market market event = some r) :
    ∃ tids ms mn rd yp np vol liq bb ba,
      market.clobTokenIds = some tids ∧ 2 ≤ tids.length ∧
      pyFloatOr market.bestBid = Except.ok bb ∧
      pyFloatOr market.bestAsk = Except.ok ba ∧
      r = build_market market event (tids.getD 0 "") (tids.getD 1 "")
            ms mn rd yp np vol liq bb ba := by
  unfold parse_market at h
  split at h
  · exact Option.noConfusion h
  · next tids htids =>
    split at h
    · exact Option.noConfusion h
    · next hlen =>
      split at h
      · next r' hc =>
        obtain ⟨ms, mn, rd, yp, np, vol, liq, bb, ba, hbb, hba, hr⟩ :=
          parse_market_core_ok hc
        cases h
        exact ⟨tids, ms, mn, rd, yp, np, vol, liq, bb, ba, htids,
          by omega, hbb, hba, hr⟩
      · exact Option.noConfusion h

theorem resolution_days_nonneg (market : RawMarket) (event : RawEvent) :
    0 ≤ resolution_days market event := by
  unfold resolution_days
  split
  · exact le_max_left 0 _
  · norm_num

theorem build_market_days {market : RawMarket} {event : RawEvent}
    {y n : String} {ms mn rd yp np vol liq bb ba : ℚ} :
    (build_market market event y n ms mn rd yp np vol liq bb ba).days_to_resolution
      = resolution_days market event := rfl

theorem build_market_fields {market : RawMarket} {event : RawEvent}
    {y n : String} {ms mn rd yp np vol liq bb ba : ℚ} :
    (build_market market event y n ms mn rd yp np vol liq bb ba).midpoint = yp ∧
    (build_market market event y n ms mn rd yp np vol liq bb ba).volume_24h = vol ∧
    (build_market market event y n ms mn rd yp np vol liq bb ba).liquidity = liq ∧
    (build_market market event y n ms mn rd yp np vol liq bb ba).daily_reward = rd :=
  ⟨rfl, rfl, rfl, rfl⟩

theorem build_market_risk_score {market : RawMarket} {event : RawEvent}
    {y n : String} {ms mn rd yp np vol liq bb ba : ℚ} :
    (build_market market event y n ms mn rd yp np vol liq bb ba).risk_score =
      min 100 ((max 0 (50 - resolution_days market event) * 2 +
        (1 - |yp - 1/2| * 2) * 50 + min 50 (vol / 1000 * 10)) / 3) := rfl

theorem build_market_competition {market : RawMarket} {event : RawEvent}
    {y n : String} {ms mn rd yp np vol liq bb ba : ℚ} :
    (build_market market event y n ms mn rd yp np vol liq bb ba).competition_score =
      if 0 < rd then min 100 (liq / (rd * 100) * 10) else 100 := rfl

theorem build_market_mid_mean {market : RawMarket} {event : RawEvent}
    {y n : String} {ms mn rd yp np vol liq bb ba : ℚ}
    (h : ¬(0 < bb ∧ 0 < ba)) :
    (build_market market event y n ms mn rd yp np vol liq bb ba).midpoint =
      ((build_market market event y n ms mn rd yp np vol liq bb ba).best_bid +
       (build_market market event y n ms mn rd yp np vol liq bb ba).best_ask) / 2 := by
  simp only [build_market, if_neg h]
  ring

theorem round3_mono {x y : ℚ} (h : x ≤ y) : round3 x ≤ round3 y := by
  unfold round3
  have h1 : round (x * 1000) ≤ round (y * 1000) := by
    rw [round_eq, round_eq]
    exact Int.floor_mono (by linarith)
  have h2 : ((round (x * 1000) : ℤ) : ℚ) ≤ ((round (y * 1000) : ℤ) : ℚ) :=
    Int.cast_le.mpr h1
  linarith

theorem round3_int_div (n : ℤ) : round3 ((n : ℚ) / 1000) = (n : ℚ) / 1000 := by
  unfold round3
  rw [div_mul_cancel₀ _ (by norm_num : (1000 : ℚ) ≠ 0), round_intCast]

theorem le_clamp (lo hi x : ℚ) : lo ≤ clamp lo hi x := le_max_left lo _

theorem clamp_le {lo hi : ℚ} (h : lo ≤ hi) (x : ℚ) : clamp lo hi x ≤ hi :=
  max_le h (min_le_left hi x)

theorem clamp_mono {lo hi x y : ℚ} (h : x ≤ y) : clamp lo hi x ≤ clamp lo hi y :=
  max_le_max le_rfl (min_le_min le_rfl h)

theorem clamp_eq_of_le {lo hi x : ℚ} (hx : x ≤ lo) (hlh : lo ≤ hi) :
    clamp lo hi x = lo := by
  unfold clamp
  rw [min_eq_right (hx.trans hlh), max_eq_left hx]

theorem clamp_eq_of_ge {lo hi x : ℚ} (hx : hi ≤ x) (hlh : lo ≤ hi) :
    clamp lo hi x = hi := by
  unfold clamp
  rw [min_eq_left hx, max_eq_right hlh]

theorem clamp_eq_self {lo hi x : ℚ} (h1 : lo ≤ x) (h2 : x ≤ hi) :
    clamp lo hi x = x := by
  unfold clamp
  rw [min_eq_right h2, max_eq_right h1]

theorem round3_clamp {lo hi : ℚ} (hlo : round3 lo = lo) (hhi : round3 hi = hi)
    (hlh : lo ≤ hi) (x : ℚ) :
    clamp lo hi (round3 x) = round3 (clamp lo hi x) := by
  rcases le_total x lo with h | h
  · rw [clamp_eq_of_le h hlh, hlo,
      clamp_eq_of_le (by rw [← hlo]; exact round3_mono h) hlh]
  · rcases le_total hi x with h' | h'
    · rw [clamp_eq_of_ge h' hlh, hhi,
        clamp_eq_of_ge (by rw [← hhi]; exact round3_mono h') hlh]
    · rw [clamp_eq_self h h',
        clamp_eq_self (by rw [← hlo]; exact round3_mono h)
          (by rw [← hhi]; exact round3_mono h')]

theorem round3_hundredth_lo : round3 ((1 : ℚ) / 100) = 1 / 100 := by
  have h : (1 : ℚ) / 100 = ((10 : ℤ) : ℚ) / 1000 := by norm_num
  rw [h, round3_int_div]

theorem round3_hundredth_hi : round3 ((99 : ℚ) / 100) = 99 / 100 := by
  have h : (99 : ℚ) / 100 = ((990 : ℤ) : ℚ) / 1000 := by norm_num
  rw [h, round3_int_div]

theorem clamp_round3_thousandth (x : ℚ) :
    ∃ n : ℤ, clamp (1/100) (99/100) (round3 x) = (n : ℚ) / 1000 ∧
      10 ≤ n ∧ n ≤ 990 := by
  refine ⟨max 10 (min 990 (round (x * 1000))), ?_, le_max_left _ _,
    max_le (by norm_num) (min_le_left _ _)⟩
  have h1 : (1 : ℚ) / 100 = (10 : ℚ) / 1000 := by norm_num
  have h2 : (99 : ℚ) / 100 = (990 : ℚ) / 1000 := by norm_num
  have h3 : round3 x = ((round (x * 1000) : ℤ) : ℚ) / 1000 := rfl
  rw [h1, h2, h3]
  unfold clamp
  rw [min_div_div_right (by norm_num : (0 : ℚ) ≤ 1000),
    max_div_div_right (by norm_num : (0 : ℚ) ≤ 1000)]
  push_cast
  ring

theorem place_bid_price_eq (mid sp margin s msz : ℚ) :
    (place_lp_orders mid sp margin s msz).bid_price =
      round3 (clamp (1/100) (99/100) (mid - sp + margin)) := by
  show clamp (1/100) (99/100) (round3 (mid - sp + margin)) = _
  rw [round3_clamp round3_hundredth_lo round3_hundredth_hi (by norm_num)]

theorem place_ask_price_eq (mid sp margin s msz : ℚ) :
    (place_lp_orders mid sp margin s msz).ask_price =
      round3 (clamp (1/100) (99/100) (mid + sp - margin)) := by
  show clamp (1/100) (99/100) (round3 (mid + sp - margin)) = _
  rw [round3_clamp round3_hundredth_lo round3_hundredth_hi (by norm_num)]

theorem place_ask_rep (mid sp margin s msz : ℚ) :
    ∃ n : ℤ, (place_lp_orders mid sp margin s msz).ask_price = (n : ℚ) / 1000 ∧
      10 ≤ n ∧ n ≤ 990 := by
  show ∃ n : ℤ, clamp (1/100) (99/100) (round3 (mid + sp - margin)) = (n : ℚ) / 1000 ∧
      10 ≤ n ∧ n ≤ 990
  exact clamp_round3_thousandth _

theorem place_no_bid_eq (mid sp margin s msz : ℚ) :
    (place_lp_orders mid sp margin s msz).no_bid_price =
      clamp (1/100) (99/100) (1 - (place_lp_orders mid sp margin s msz).ask_price) := by
  obtain ⟨k, hk, h10, h990⟩ := place_ask_rep mid sp margin s msz
  have h : (place_lp_orders mid sp margin s msz).no_bid_price =
      clamp (1/100) (99/100)
        (round3 (1 - (place_lp_orders mid sp margin s msz).ask_price)) := rfl
  rw [h, hk]
  have h1 : (1 : ℚ) - (k : ℚ) / 1000 = ((1000 - k : ℤ) : ℚ) / 1000 := by
    push_cast
    ring
  rw [h1, round3_int_div]

theorem place_bid_price_pos (mid sp margin s msz : ℚ) :
    0 < (place_lp_orders mid sp margin s msz).bid_price := by
  show (0 : ℚ) < clamp (1/100) (99/100) (round3 (mid - sp + margin))
  exact lt_of_lt_of_le (by norm_num) (le_clamp _ _ _)

theorem place_ask_price_pos (mid sp margin s msz : ℚ) :
    0 < (place_lp_orders mid sp margin s msz).ask_price := by
  show (0 : ℚ) < clamp (1/100) (99/100) (round3 (mid + sp - margin))
  exact lt_of_lt_of_le (by norm_num) (le_clamp _ _ _)

theorem place_no_bid_price_pos (mid sp margin s msz : ℚ) :
    0 < (place_lp_orders mid sp margin s msz).no_bid_price := by
  show (0 : ℚ) < clamp (1/100) (99/100)
    (round3 (1 - clamp (1/100) (99/100) (round3 (mid + sp - margin))))
  exact lt_of_lt_of_le (by norm_num) (le_clamp _ _ _)

theorem place_bid_shares_eq (mid sp margin s msz : ℚ) :
    (place_lp_orders mid sp margin s msz).bid_shares =
      max (s / (place_lp_orders mid sp margin s msz).bid_price) msz := by
  show max (if 0 < (place_lp_orders mid sp margin s msz).bid_price then
      s / (place_lp_orders mid sp margin s msz).bid_price else 0) msz = _
  rw [if_pos (place_bid_price_pos mid sp margin s msz)]

theorem place_ask_shares_eq (mid sp margin s msz : ℚ) :
    (place_lp_orders mid sp margin s msz).ask_shares =
      max (s / (place_lp_orders mid sp margin s msz).ask_price) msz := by
  show max (if 0 < (place_lp_orders mid sp margin s msz).ask_price then
      s / (place_lp_orders mid sp margin s msz).ask_price else 0) msz = _
  rw [if_pos (place_ask_price_pos mid sp margin s msz)]

theorem place_no_shares_eq (mid sp margin s msz : ℚ) :
    (place_lp_orders mid sp margin s msz).no_shares =
      max (s / (place_lp_orders mid sp margin s msz).no_bid_price) msz := by
  show max (if 0 < (place_lp_orders mid sp margin s msz).no_bid_price then
      s / (place_lp_orders mid sp margin s msz).no_bid_price else 0) msz = _
  rw [if_pos (place_no_bid_price_pos mid sp margin s msz)]

theorem place_bid_le_ask {mid sp margin : ℚ} (h : margin ≤ sp) (s msz : ℚ) :
    (place_lp_orders mid sp margin s msz).bid_price ≤
      (place_lp_orders mid sp margin s msz).ask_price := by
  show clamp (1/100) (99/100) (round3 (mid - sp + margin)) ≤
      clamp (1/100) (99/100) (round3 (mid + sp - margin))
  exact clamp_mono (round3_mono (by linarith))

/-- C2: for every market and capital allocation the Quote Strategist
computes bidPrice = clamp(midpoint - maxSpread + safetyMargin, 0.01,
0.99) and askPrice = clamp(midpoint + maxSpread - safetyMargin, 0.01,
0.99), each rounded to 3 decimals, synthesizes the NO side as a buy at
clamp(1 - askPrice, 0.01, 0.99), and sizes each side as capital/price
raised to the market minimum when short; in particular midpoint 0.50,
maxSpread 0.10, margin 0.005 yields 0.405 / 0.595 and NO price 0.405,
and midpoint 0.02, maxSpread 0.10 clamps the bid to 0.01, never
negative. -/
theorem claim_C2_quote_strategist :
    (∀ mid sp margin s msz : ℚ,
      (place_lp_orders mid sp margin s msz).bid_price =
        round3 (clamp (1/100) (99/100) (mid - sp + margin)) ∧
      (place_lp_orders mid sp margin s msz).ask_price =
        round3 (clamp (1/100) (99/100) (mid + sp - margin)) ∧
      (place_lp_orders mid sp margin s msz).no_bid_price =
        clamp (1/100) (99/100)
          (1 - (place_lp_orders mid sp margin s msz).ask_price) ∧
      (place_lp_orders mid sp margin s msz).bid_shares =
        max (s / (place_lp_orders mid sp margin s msz).bid_price) msz ∧
      (place_lp_orders mid sp margin s msz).ask_shares =
        max (s / (place_lp_orders mid sp margin s msz).ask_price) msz ∧
      (place_lp_orders mid sp margin s msz).no_shares =
        max (s / (place_lp_orders mid sp margin s msz).no_bid_price) msz) ∧
    (place_lp_orders (1/2) (1/10) (1/200) 500 0).bid_price = 405/1000 ∧
    (place_lp_orders (1/2) (1/10) (1/200) 500 0).ask_price = 595/1000 ∧
    (place_lp_orders (1/2) (1/10) (1/200) 500 0).no_bid_price = 405/1000 ∧
    (place_lp_orders (1/50) (1/10) (1/200) 500 0).bid_price = 1/100 ∧
    0 < (place_lp_orders (1/50) (1/10) (1/200) 500 0).bid_price := by
  refine ⟨fun mid sp margin s msz =>
    ⟨place_bid_price_eq mid sp margin s msz, place_ask_price_eq mid sp margin s msz,
     place_no_bid_eq mid sp margin s msz, place_bid_shares_eq mid sp margin s msz,
     place_ask_shares_eq mid sp margin s msz, place_no_shares_eq mid sp margin s msz⟩,
    ?_, ?_, ?_, ?_, ?_⟩
  · show clamp (1/100) (99/100) (round3 ((1:ℚ)/2 - 1/10 + 1/200)) = 405/1000
    norm_num [clamp, round3, round_eq, max_def, min_def]
  · show clamp (1/100) (99/100) (round3 ((1:ℚ)/2 + 1/10 - 1/200)) = 595/1000
    norm_num [clamp, round3, round_eq, max_def, min_def]
  · show clamp (1/100) (99/100)
      (round3 (1 - clamp (1/100) (99/100) (round3 ((1:ℚ)/2 + 1/10 - 1/200)))) = 405/1000
    norm_num [clamp, round3, round_eq, max_def, min_def]
  · show clamp (1/100) (99/100) (round3 ((1:ℚ)/50 - 1/10 + 1/200)) = 1/100
    norm_num [clamp, round3, round_eq, max_def, min_def]
  · show (0:ℚ) < clamp (1/100) (99/100) (round3 ((1:ℚ)/50 - 1/10 + 1/200))
    norm_num [clamp, round3, round_eq, max_def, min_def]

/-- C10: whenever the market's maxSpread is at least the safety margin
the rounded and clamped quotes never cross, and for maxSpread 0.001
below the default margin 0.005 at midpoint 0.5 the computed quotes do
cross. -/
theorem claim_C10_quote_crossing :
    (∀ mid sp margin s msz : ℚ, margin ≤ sp →
      (place_lp_orders mid sp margin s msz).bid_price ≤
        (place_lp_orders mid sp margin s msz).ask_price) ∧
    (place_lp_orders (1/2) (1/1000) (1/200) 500 0).ask_price <
      (place_lp_orders (1/2) (1/1000) (1/200) 500 0).bid_price := by
  refine ⟨fun mid sp margin s msz h => place_bid_le_ask h s msz, ?_⟩
  show clamp (1/100) (99/100) (round3 ((1:ℚ)/2 + 1/1000 - 1/200)) <
    clamp (1/100) (99/100) (round3 ((1:ℚ)/2 - 1/1000 + 1/200))
  norm_num [clamp, round3, round_eq, max_def, min_def]

/-- Witness for C10 at the concrete eligible configuration midpoint
0.50, maxSpread 0.10, margin 0.005. -/
theorem claim_C10_witness :
    (place_lp_orders (1/2) (1/10) (1/200) 500 0).bid_price ≤
      (place_lp_orders (1/2) (1/10) (1/200) 500 0).ask_price :=
  claim_C10_quote_crossing.1 (1/2) (1/10) (1/200) 500 0 (by norm_num)

theorem check_fill_risk_eq (T mid bid ask : ℚ) :
    check_fill_risk T mid bid ask =
      if min |mid - bid| |mid - ask| < T then (.critical, true)
      else if min |mid - bid| |mid - ask| < T * 2 then (.warning, true)
      else if min |mid - bid| |mid - ask| < T * 3 then (.watch, false)
      else (.safe, false) := by
  unfold check_fill_risk
  simp only [min_lt_iff]

/-- C3: with d the smaller of the distances from the monitored midpoint
to our bid and ask and threshold T, check_fill_risk classifies CRITICAL
iff d < T, WARNING iff T ≤ d < 2T, WATCH iff 2T ≤ d < 3T and SAFE iff
3T ≤ d (exclusive upper bounds, first matching tier winning), emitting
an alert exactly in the CRITICAL and WARNING tiers; with T = 0.02,
distance 0.019 is CRITICAL, 0.025 WARNING, 0.05 WATCH, 0.10 SAFE. -/
theorem claim_C3_fill_risk :
    (∀ T mid bid ask : ℚ,
      ((check_fill_risk T mid bid ask).1 = .critical ↔
        min |mid - bid| |mid - ask| < T) ∧
      ((check_fill_risk T mid bid ask).1 = .warning ↔
        T ≤ min |mid - bid| |mid - ask| ∧ min |mid - bid| |mid - ask| < T * 2) ∧
      ((check_fill_risk T mid bid ask).1 = .watch ↔
        T * 2 ≤ min |mid - bid| |mid - ask| ∧ min |mid - bid| |mid - ask| < T * 3) ∧
      ((check_fill_risk T mid bid ask).1 = .safe ↔
        T * 3 ≤ min |mid - bid| |mid - ask|) ∧
      ((check_fill_risk T mid bid ask).2 = true ↔
        (check_fill_risk T mid bid ask).1 = .critical ∨
        (check_fill_risk T mid bid ask).1 = .warning)) ∧
    (check_fill_risk (2/100) (419/1000) (2/5) (3/5)).1 = .critical ∧
    (check_fill_risk (2/100) (425/1000) (2/5) (3/5)).1 = .warning ∧
    (check_fill_risk (2/100) (45/100) (2/5) (3/5)).1 = .watch ∧
    (check_fill_risk (2/100) (1/2) (2/5) (3/5)).1 = .safe := by
  refine ⟨fun T mid bid ask => ?_, ?_, ?_, ?_, ?_⟩
  · have hd0 : 0 ≤ min |mid - bid| |mid - ask| :=
      le_min (abs_nonneg _) (abs_nonneg _)
    rw [check_fill_risk_eq]
    rcases lt_or_le (min |mid - bid| |mid - ask|) T with h1 | h1
    · rw [if_pos h1]
      exact ⟨iff_of_true rfl h1,
        iff_of_false (by simp) (by rintro ⟨h, _⟩; linarith),
        iff_of_false (by simp) (by rintro ⟨h, _⟩; linarith),
        iff_of_false (by simp) (by intro h; linarith),
        iff_of_true rfl (Or.inl rfl)⟩
    · rw [if_neg (not_lt.mpr h1)]
      rcases lt_or_le (min |mid - bid| |mid - ask|) (T * 2) with h2 | h2
      · rw [if_pos h2]
        exact ⟨iff_of_false (by simp) (by intro h; linarith),
          iff_of_true rfl ⟨h1, h2⟩,
          iff_of_false (by simp) (by rintro ⟨h, _⟩; linarith),
          iff_of_false (by simp) (by intro h; linarith),
          iff_of_true rfl (Or.inr rfl)⟩
      · rw [if_neg (not_lt.mpr h2)]
        rcases lt_or_le (min |mid - bid| |mid - ask|) (T * 3) with h3 | h3
        · rw [if_pos h3]
          exact ⟨iff_of_false (by simp) (by intro h; linarith),
            iff_of_false (by simp) (by rintro ⟨_, h⟩; linarith),
            iff_of_true rfl ⟨h2, h3⟩,
            iff_of_false (by simp) (by intro h; linarith),
            iff_of_false (by simp) (by rintro (h | h) <;> simp at h)⟩
        · rw [if_neg (not_lt.mpr h3)]
          exact ⟨iff_of_false (by simp) (by intro h; linarith),
            iff_of_false (by simp) (by rintro ⟨_, h⟩; linarith),
            iff_of_false (by simp) (by rintro ⟨_, h⟩; linarith),
            iff_of_true rfl h3,
            iff_of_false (by simp) (by rintro (h | h) <;> simp at h)⟩
  · norm_num [check_fill_risk, abs_lt]
  · norm_num [check_fill_risk, abs_lt]
  · norm_num [check_fill_risk, abs_lt]
  · norm_num [check_fill_risk, abs_lt]

/-- C5: every Market produced by the normaliser satisfies riskScore =
min(100, (timeRisk + priceRisk + volumeRisk) / 3) with timeRisk =
max(0, 50 - daysToResolution) * 2, priceRisk = (1 - |midpoint - 0.5| *
2) * 50 and volumeRisk = min(50, volume24h / 1000 * 10); only the sum
is clamped by the outer min. -/
theorem claim_C5_risk_score {market : RawMarket} {event : RawEvent}
    {r : RewardMarket} (h : parse_market market event = some r) :
    r.risk_score = min 100 ((max 0 (50 - r.days_to_resolution) * 2 +
      (1 - |r.midpoint - 1/2| * 2) * 50 +
      min 50 (r.volume_24h / 1000 * 10)) / 3) := by
  obtain ⟨tids, ms, mn, rd, yp, np, vol, liq, bb, ba, htids, hlen, hbb, hba, hr⟩ :=
    parse_market_some h
  subst hr
  rw [build_market_risk_score, build_market_days, build_market_fields.1,
    build_market_fields.2.1]

/-- Witness for C5: the risk-score identity evaluated on a concrete
well-formed raw record. -/
theorem claim_C5_witness :
    (parse_market rawGood event0).elim False (fun r => r.risk_score =
      min 100 ((max 0 (50 - r.days_to_resolution) * 2 +
        (1 - |r.midpoint - 1/2| * 2) * 50 +
        min 50 (r.volume_24h / 1000 * 10)) / 3)) := by
  have h : parse_market rawGood event0 =
      some (build_market rawGood event0 "tok-yes-d" "tok-no-d"
        3 100 2 (3/5) (2/5) 100 500 0 0) := rfl
  rw [h]
  exact claim_C5_risk_score h

/-- C6 (amended): every Market the normaliser produces from a raw
record with nonnegative liquidity and 24h volume and a yes price inside
[0, 1] has competitionScore and riskScore inside [0, 100]; with a
negative raw liquidity or a yes price outside [0, 1] the scores can
leave the interval (see the counterexample). -/
theorem claim_C6_score_bounds {market : RawMarket} {event : RawEvent}
    {r : RewardMarket} (h : parse_market market event = some r)
    (hliq : 0 ≤ r.liquidity) (hvol : 0 ≤ r.volume_24h)
    (hmid0 : 0 ≤ r.midpoint) (hmid1 : r.midpoint ≤ 1) :
    0 ≤ r.competition_score ∧ r.competition_score ≤ 100 ∧
    0 ≤ r.risk_score ∧ r.risk_score ≤ 100 := by
  obtain ⟨tids, ms, mn, rd, yp, np, vol, liq, bb, ba, htids, hlen, hbb, hba, hr⟩ :=
    parse_market_some h
  subst hr
  rw [build_market_fields.2.2.1] at hliq
  rw [build_market_fields.2.1] at hvol
  rw [build_market_fields.1] at hmid0 hmid1
  refine ⟨?_, ?_, ?_, ?_⟩
  · rw [build_market_competition]
    split_ifs with hrd
    · refine le_min (by norm_num) ?_
      have h1 : (0 : ℚ) ≤ rd * 100 := by linarith
      exact mul_nonneg (div_nonneg hliq h1) (by norm_num)
    · norm_num
  · rw [build_market_competition]
    split_ifs
    · exact min_le_left _ _
    · norm_num
  · rw [build_market_risk_score]
    have ht : (0 : ℚ) ≤ max 0 (50 - resolution_days market event) * 2 :=
      mul_nonneg (le_max_left _ _) (by norm_num)
    have habs : |yp - 1/2| ≤ 1/2 := abs_le.mpr ⟨by linarith, by linarith⟩
    have hp : (0 : ℚ) ≤ (1 - |yp - 1/2| * 2) * 50 :=
      mul_nonneg (by linarith) (by norm_num)
    have hv : (0 : ℚ) ≤ min 50 (vol / 1000 * 10) :=
      le_min (by norm_num) (mul_nonneg (div_nonneg hvol (by norm_num)) (by norm_num))
    exact le_min (by norm_num) (by linarith)
  · rw [build_market_risk_score]
    exact min_le_left _ _

/-- Counterexample for C6 as stated: a raw record with two token ids, a
daily reward of 1 and a raw liquidity of -1000 normalises to a Market
whose competitionScore is -100, outside [0, 100]. -/
theorem claim_C6_counterexample :
    (parse_market rawNegLiq event0).map RewardMarket.competition_score =
      some (-100) ∧ ¬ (0 ≤ (-100 : ℚ)) := by
  have h : parse_market rawNegLiq event0 =
      some (build_market rawNegLiq event0 "tok-yes-b" "tok-no-b"
        0 0 1 (1/2) (1/2) 0 (-1000) 0 0) := rfl
  rw [h]
  refine ⟨?_, by norm_num⟩
  show some ((build_market rawNegLiq event0 "tok-yes-b" "tok-no-b"
    0 0 1 (1/2) (1/2) 0 (-1000) 0 0).competition_score) = some (-100)
  refine congrArg some ?_
  rw [build_market_competition]
  norm_num [min_def]

/-- Witness for C6: the amended bounds evaluated on a concrete raw
record with nonnegative activity fields and an in-range yes price. -/
theorem claim_C6_witness :
    (parse_market rawGood event0).elim False
      (fun r => 0 ≤ r.competition_score ∧ r.competition_score ≤ 100 ∧
        0 ≤ r.risk_score ∧ r.risk_score ≤ 100) := by
  have h : parse_market rawGood event0 =
      some (build_market rawGood event0 "tok-yes-d" "tok-no-d"
        3 100 2 (3/5) (2/5) 100 500 0 0) := rfl
  rw [h]
  exact claim_C6_score_bounds h (by norm_num [build_market_fields.2.2.1])
    (by norm_num [build_market_fields.2.1])
    (by norm_num [build_market_fields.1]) (by norm_num [build_market_fields.1])

/-- C9 (amended): a Market produced by the normaliser satisfies
midpoint = (bestBid + bestAsk) / 2 whenever the bid/ask pair was
synthetically reconstructed (the raw record did not supply two positive
quotes); when both raw quotes are positive the midpoint is the raw yes
price, which can differ from the mean (see the counterexample). -/
theorem claim_C9_midpoint_mean {market : RawMarket} {event : RawEvent}
    {r : RewardMarket} {bb ba : ℚ}
    (h : parse_market market event = some r)
    (hbb : pyFloatOr market.bestBid = Except.ok bb)
    (hba : pyFloatOr market.bestAsk = Except.ok ba)
    (hraw : ¬(0 < bb ∧ 0 < ba)) :
    r.midpoint = (r.best_bid + r.best_ask) / 2 := by
  obtain ⟨tids, ms, mn, rd, yp, np, vol, liq, bb', ba', htids, hlen, hbb', hba', hr⟩ :=
    parse_market_some h
  subst hr
  have e1 : bb' = bb := Except.ok.inj (hbb'.symm.trans hbb)
  have e2 : ba' = ba := Except.ok.inj (hba'.symm.trans hba)
  subst e1
  subst e2
  exact build_market_mid_mean hraw

/-- Witness for C9: the midpoint identity on a concrete record whose
top-of-book is synthesized. -/
theorem claim_C9_witness :
    (parse_market rawGood event0).elim False
      (fun r => r.midpoint = (r.best_bid + r.best_ask) / 2) := by
  have h : parse_market rawGood event0 =
      some (build_market rawGood event0 "tok-yes-d" "tok-no-d"
        3 100 2 (3/5) (2/5) 100 500 0 0) := rfl
  rw [h]
  exact claim_C9_midpoint_mean h rfl rfl (by norm_num)

/-- Counterexample for C9 as stated: with raw quotes bestBid = 0.4 and
bestAsk = 0.6 but yes price 0.7 the normalised midpoint is 0.7 while
the mean of best bid and ask is 0.5. -/
theorem claim_C9_counterexample :
    (parse_market rawBidAsk event0).map
      (fun r => (r.midpoint, (r.best_bid + r.best_ask) / 2)) =
      some (7/10, 1/2) ∧ ((7 : ℚ)/10, (1 : ℚ)/2).1 ≠ ((7 : ℚ)/10, (1 : ℚ)/2).2 := by
  have h : parse_market rawBidAsk event0 =
      some (build_market rawBidAsk event0 "tok-yes-c" "tok-no-c"
        0 0 0 (7/10) (3/10) 0 0 (2/5) (3/5)) := by
    norm_num [parse_market, parse_market_core, pyFloatOr, pyFloatVal, or_chain,
      RawField.truthy, fallback_if_zero, rewards_daily_base, sum_reward_entries,
      price_list, yes_price_of, no_price_of, pyFloatOr2, rawBidAsk, except_ok_bind]
  rw [h]
  refine ⟨?_, by norm_num⟩
  show some ((build_market rawBidAsk event0 "tok-yes-c" "tok-no-c"
      0 0 0 (7/10) (3/10) 0 0 (2/5) (3/5)).midpoint,
    ((build_market rawBidAsk event0 "tok-yes-c" "tok-no-c"
      0 0 0 (7/10) (3/10) 0 0 (2/5) (3/5)).best_bid +
     (build_market rawBidAsk event0 "tok-yes-c" "tok-no-c"
      0 0 0 (7/10) (3/10) 0 0 (2/5) (3/5)).best_ask) / 2) = some (7/10, 1/2)
  refine congrArg some ?_
  have hcond : (0 : ℚ) < 2/5 ∧ (0 : ℚ) < 3/5 := by norm_num
  have hbid : (build_market rawBidAsk event0 "tok-yes-c" "tok-no-c"
      0 0 0 (7/10) (3/10) 0 0 (2/5) (3/5)).best_bid = 2/5 := by
    show (if (0 : ℚ) < 2/5 ∧ (0 : ℚ) < 3/5 then (2/5 : ℚ) else _) = 2/5
    rw [if_pos hcond]
  have hask : (build_market rawBidAsk event0 "tok-yes-c" "tok-no-c"
      0 0 0 (7/10) (3/10) 0 0 (2/5) (3/5)).best_ask = 3/5 := by
    show (if (0 : ℚ) < 2/5 ∧ (0 : ℚ) < 3/5 then (3/5 : ℚ) else _) = 3/5
    rw [if_pos hcond]
  rw [hbid, hask, build_market_fields.1]
  norm_num

/-- C7: parse_market returns absent (none) when the token-identifier
list is missing or shorter than 2, returns absent whenever the fallible
derivation raises, and a produced Market always comes from a complete,
successful derivation (never a partial record); as a total function
into Option it never raises. -/
theorem claim_C7_normalizer_resilience (market : RawMarket) (event : RawEvent) :
    (token_ids_ok market = false → parse_market market event = none) ∧
    (∀ tids, market.clobTokenIds = some tids → 2 ≤ tids.length →
      parse_market_core market event (tids.getD 0 "") (tids.getD 1 "") =
        .error () →
      parse_market market event = none) ∧
    (∀ r, parse_market market event = some r →
      token_ids_ok market = true ∧
      ∃ tids, market.clobTokenIds = some tids ∧
        parse_market_core market event (tids.getD 0 "") (tids.getD 1 "") =
          .ok r) := by
  refine ⟨?_, ?_, ?_⟩
  · intro hf
    unfold parse_market
    cases hm : market.clobTokenIds with
    | none => rfl
    | some tids =>
        unfold token_ids_ok at hf
        rw [hm] at hf
        have hlen : tids.length < 2 := by
          by_contra hc
          simp [Nat.le_of_not_lt hc] at hf
        simp only [hlen, if_pos]
  · intro tids htids hlen hc
    unfold parse_market
    simp only [htids]
    rw [if_neg (by omega)]
    rw [hc]
  · intro r h
    unfold parse_market at h
    split at h
    · exact Option.noConfusion h
    · next tids htids =>
      split at h
      · exact Option.noConfusion h
      · next hlen =>
        split at h
        · next r' hc =>
          cases h
          constructor
          · unfold token_ids_ok
            rw [htids]
            simp
            omega
          · exact ⟨tids, htids, hc⟩
        · exact Option.noConfusion h

/-- Witness for C7: a record with no token-id list normalises to
absent. -/
theorem claim_C7_witness : parse_market rawNoTokens event0 = none :=
  (claim_C7_normalizer_resilience rawNoTokens event0).1 rfl

/-- C1: every market the ranker outputs is reward-eligible
(dailyReward > 0, maxSpread > 0) and passes the three threshold
filters; the output is sorted non-ascending in reward_per_dollar; ties
retain input order (for every key value, the tied markets appear
exactly as in the filtered input); and identical inputs give identical
output. -/
theorem claim_C1_ranker (all_markets : List RewardMarket)
    (min_days min_daily_reward max_competition : ℚ) :
    (∀ m ∈ rank_markets min_days min_daily_reward max_competition all_markets,
      0 < m.daily_reward ∧ 0 < m.max_spread ∧
      min_days ≤ m.days_to_resolution ∧ min_daily_reward ≤ m.daily_reward ∧
      m.competition_score ≤ max_competition) ∧
    List.Pairwise rpd_ge
      (rank_markets min_days min_daily_reward max_competition all_markets) ∧
    (∀ k : ℚ,
      (rank_markets min_days min_daily_reward max_competition
        all_markets).filter (fun m => decide (m.reward_per_dollar = k)) =
      (threshold_filter min_days min_daily_reward max_competition
        (reward_filter all_markets)).filter
          (fun m => decide (m.reward_per_dollar = k))) ∧
    rank_markets min_days min_daily_reward max_competition all_markets =
      rank_markets min_days min_daily_reward max_competition all_markets := by
  refine ⟨?_, ?_, ?_, rfl⟩
  · intro m hm
    unfold rank_markets at hm
    rw [List.mem_insertionSort] at hm
    simp only [threshold_filter, reward_filter, List.mem_filter,
      Bool.and_eq_true, decide_eq_true_eq] at hm
    obtain ⟨⟨_, h1, h2⟩, ⟨h3, h4⟩, h5⟩ := hm
    exact ⟨h1, h2, h3, h4, h5⟩
  · exact List.sorted_insertionSort rpd_ge _
  · intro k
    set L := threshold_filter min_days min_daily_reward max_competition
      (reward_filter all_markets) with hL
    set p : RewardMarket → Bool := fun m => decide (m.reward_per_dollar = k)
      with hp
    have hperm : List.Perm ((List.insertionSort rpd_ge L).filter p)
        (L.filter p) :=
      (List.perm_insertionSort rpd_ge L).filter p
    have hpw : (L.filter p).Pairwise rpd_ge := by
      apply List.pairwise_of_forall_mem_list
      intro a ha b hb
      have ha' := (List.mem_filter.mp ha).2
      have hb' := (List.mem_filter.mp hb).2
      rw [hp] at ha' hb'
      simp only [decide_eq_true_eq] at ha' hb'
      unfold rpd_ge
      rw [ha', hb']
    have hsub : List.Sublist (L.filter p) (List.insertionSort rpd_ge L) :=
      List.sublist_insertionSort hpw (List.filter_sublist L)
    have hsub2 : List.Sublist ((L.filter p).filter p)
        ((List.insertionSort rpd_ge L).filter p) :=
      hsub.filter p
    have hidem : (L.filter p).filter p = L.filter p := by
      rw [List.filter_filter]
      apply List.filter_congr
      intro a _
      rw [Bool.and_self]
    rw [hidem] at hsub2
    exact (hsub2.eq_of_length hperm.length_eq.symm).symm

/-- Witness for C1: the eligibility facts extracted from the ranker's
output on a concrete singleton input with thresholds 14 days, 1 dollar,
70 competition. -/
theorem claim_C1_witness :
    (0 : ℚ) < marketA.daily_reward ∧ (0 : ℚ) < marketA.max_spread ∧
    (14 : ℚ) ≤ marketA.days_to_resolution ∧ (1 : ℚ) ≤ marketA.daily_reward ∧
    marketA.competition_score ≤ 70 :=
  (claim_C1_ranker [marketA] 14 1 70).1 marketA
    (by norm_num [rank_markets, threshold_filter, reward_filter, marketA,
      List.insertionSort, List.orderedInsert])

theorem truthy_handle_length (o : Option String) : (truthy_handle o).length ≤ 1 := by
  cases o with
  | none => simp [truthy_handle]
  | some s =>
      simp only [truthy_handle]
      split_ifs <;> simp

theorem handle_signal_map_fst (client_cancel : String → Except String Unit)
    (positions : List ActivePosition) :
    (handle_signal client_cancel positions).map Prod.fst =
      positions.flatMap (fun pos =>
        truthy_handle pos.order_id_yes ++ truthy_handle pos.order_id_no) := by
  induction positions with
  | nil => rfl
  | cons pos ps ih =>
      simp only [handle_signal, List.flatMap_cons, List.map_append,
        List.map_map] at ih ⊢
      rw [ih]
      simp [Function.comp_def]

/-- C4 (amended): the shutdown handler attempts exactly one
cancellation per present non-empty order handle of every position, in
order (so at most 2N attempts for N positions), and the attempted set
is independent of which cancellations fail, since cancel_order
swallows the exception; a handle that is present but the empty string
is skipped by Python truthiness (see the counterexample). -/
theorem claim_C4_shutdown_cancellation
    (client_cancel : String → Except String Unit)
    (positions : List ActivePosition) :
    (handle_signal client_cancel positions).map Prod.fst =
      positions.flatMap (fun pos =>
        truthy_handle pos.order_id_yes ++ truthy_handle pos.order_id_no) ∧
    (handle_signal client_cancel positions).length ≤ 2 * positions.length ∧
    (∀ other : String → Except String Unit,
      (handle_signal other positions).map Prod.fst =
        (handle_signal client_cancel positions).map Prod.fst) := by
  refine ⟨handle_signal_map_fst client_cancel positions, ?_,
    fun other => (handle_signal_map_fst other positions).trans
      (handle_signal_map_fst client_cancel positions).symm⟩
  induction positions with
  | nil => simp [handle_signal]
  | cons pos ps ih =>
      simp only [handle_signal, List.flatMap_cons, List.length_append,
        List.length_map, List.length_cons] at ih ⊢
      have h1 := truthy_handle_length pos.order_id_yes
      have h2 := truthy_handle_length pos.order_id_no
      omega

/-- Counterexample for C4 as stated: a position whose yes handle is
present as the empty string receives no cancellation attempt. -/
theorem claim_C4_counterexample :
    positionE.order_id_yes = some "" ∧
    handle_signal (fun _ => .ok ()) [positionE] = [] := ⟨rfl, rfl⟩

theorem place_loop_eq (size margin : ℚ) (now : String)
    (submit : RewardMarket → Option String × Option String)
    (ms : List RewardMarket) :
    place_loop size margin now submit ms =
      (ms.map (fun m => BotEvent.place m.condition_id),
       ms.map (fun m => rescan_position size margin now (submit m) m)) := by
  induction ms with
  | nil => rfl
  | cons m ms ih => simp [place_loop, ih]

/-- C8 (amended): a rescan whose scan result is non-empty first emits
one cancellation per present non-empty order handle of every existing
position, then the placement events for the top max_markets markets;
the new position set is exactly one position per such market, the old
set being discarded.  When the scan result is empty the body cancels
nothing and keeps the old positions (see the counterexample). -/
theorem claim_C8_rescan (max_markets : ℕ) (size margin : ℚ) (now : String)
    (submit : RewardMarket → Option String × Option String)
    (markets : List RewardMarket) (positions : List ActivePosition)
    (hne : markets ≠ []) :
    (run_bot_rescan max_markets size margin now submit markets positions).1 =
      (positions.flatMap (fun pos =>
        truthy_handle pos.order_id_yes ++ truthy_handle pos.order_id_no)).map
          BotEvent.cancel ++
      (markets.take max_markets).map (fun m => BotEvent.place m.condition_id) ∧
    (run_bot_rescan max_markets size margin now submit markets positions).2 =
      (markets.take max_markets).map
        (fun m => rescan_position size margin now (submit m) m) ∧
    (∀ pos ∈ positions, ∀ oid : String,
      ((pos.order_id_yes = some oid ∨ pos.order_id_no = some oid) ∧ oid ≠ "") →
      BotEvent.cancel oid ∈
        (run_bot_rescan max_markets size margin now submit markets positions).1) ∧
    (run_bot_rescan max_markets size margin now submit markets
        positions).2.length = min max_markets markets.length := by
  have hB : markets.isEmpty = false := by
    cases markets with
    | nil => exact absurd rfl hne
    | cons m ms => rfl
  have h1 : (run_bot_rescan max_markets size margin now submit markets
      positions).1 =
      (positions.flatMap (fun pos =>
        truthy_handle pos.order_id_yes ++ truthy_handle pos.order_id_no)).map
          BotEvent.cancel ++
      (markets.take max_markets).map (fun m => BotEvent.place m.condition_id) := by
    simp only [run_bot_rescan, hB, Bool.false_eq_true, if_false,
      place_loop_eq, List.map_flatMap]
  have h2 : (run_bot_rescan max_markets size margin now submit markets
      positions).2 =
      (markets.take max_markets).map
        (fun m => rescan_position size margin now (submit m) m) := by
    simp only [run_bot_rescan, hB, Bool.false_eq_true, if_false, place_loop_eq]
  refine ⟨h1, h2, ?_, ?_⟩
  · intro pos hpos oid ⟨hhandle, hoid⟩
    rw [h1]
    apply List.mem_append_left
    rw [List.mem_map]
    refine ⟨oid, ?_, rfl⟩
    rw [List.mem_flatMap]
    refine ⟨pos, hpos, ?_⟩
    rcases hhandle with hy | hn
    · apply List.mem_append_left
      rw [hy]
      simp [truthy_handle, hoid]
    · apply List.mem_append_right
      rw [hn]
      simp [truthy_handle, hoid]
  · rw [h2, List.length_map, List.length_take]

/-- Counterexample for C8 as stated: a rescan firing with a position
present but an empty scan result cancels nothing and keeps the
position set instead of clearing it. -/
theorem claim_C8_counterexample :
    positionA.order_id_yes = some "oid-yes-1" ∧
    run_bot_rescan 10 500 (1/200) "t0" (fun _ => (none, none)) [] [positionA] =
      ([], [positionA]) := ⟨rfl, rfl⟩

/-- Witness for C8: the replaced position set on a concrete rescan of
one market over one existing position. -/
theorem claim_C8_witness :
    (run_bot_rescan 10 500 (1/200) "t0" (fun _ => (none, none))
      [marketA] [positionA]).2 =
      ([marketA].take 10).map
        (fun m => rescan_position 500 (1/200) "t0"
          ((fun _ => ((none : Option String), (none : Option String))) m) m) :=
  (claim_C8_rescan 10 500 (1/200) "t0" (fun _ => (none, none))
    [marketA] [positionA] (by simp)).2.1
